import Mathlib

/-!
Verification of the BusTrack route-resolution and caching pipeline.

This file gives a shallow embedding of the geospatial core of the
repository: the geometry worker (routeWorker), the two-tier client
route cache (routeCache.ts), the Nominatim geocoder with anchor
heuristic (geoValidator.ts) and the edge route resolver
(routeResolver.ts).  JavaScript numbers are modelled as rationals
where only equality, rounding and rendering matter, and as real
numbers inside the trigonometric distance and bearing computations.
External services (Nominatim, OSRM, the Supabase record store and the
Deno KV store) are modelled as oracle functions supplied as
parameters; each oracle is keyed by the data that determines the
request the code would issue.
-/

namespace BusTrack

open Real

/-- JavaScript `Math.atan2(y, x)`: the angle of the point `(x, y)`,
in `(-pi, pi]`, with `atan2 0 0 = 0`. -/
noncomputable def atan2 (y x : ℝ) : ℝ :=
  if 0 < x then Real.arctan (y / x)
  else if x < 0 then
    (if 0 ≤ y then Real.arctan (y / x) + π else Real.arctan (y / x) - π)
  else
    (if 0 < y then π / 2 else if y < 0 then -(π / 2) else 0)

/-- The haversine great-circle distance with Earth radius `R`, exactly as
written (three times, with identical formulas) in the sources:
`geoValidator.ts` lines 15-19 with `R = 6371`, `routeResolver.ts`
lines 237-245 with `R = 6371`, and the `filterNoisyGps` branch of the
route worker with `R = 6371000`. -/
noncomputable def haversineR (R lat1 lon1 lat2 lon2 : ℝ) : ℝ :=
  let dLat := (lat2 - lat1) * π / 180
  let dLon := (lon2 - lon1) * π / 180
  let a := Real.sin (dLat / 2) ^ 2 +
    Real.cos (lat1 * π / 180) * Real.cos (lat2 * π / 180) * Real.sin (dLon / 2) ^ 2
  R * 2 * atan2 (Real.sqrt a) (Real.sqrt (1 - a))

/-! ## GeometryWorker (routeWorker) -/

/-- A single arrow entry produced by the `computeArrowBearings` message. -/
structure ArrowBearing where
  lat : ℚ
  lon : ℚ
  bearing : ℝ

/-- JavaScript remainder `a % b` (truncated division) on reals; in the
bearing computation it is only applied to a positive left operand, where
it agrees with floor division. -/
noncomputable def jsRem (a b : ℝ) : ℝ :=
  if 0 ≤ a / b then a - b * (⌊a / b⌋ : ℝ) else a - b * (⌈a / b⌉ : ℝ)

/-- The initial great-circle bearing between consecutive points, as in the
`computeArrowBearings` branch of the route worker (lines 142-148):
`(atan2(x, y) * 180 / PI + 360) % 360`. -/
noncomputable def bearingDeg (lat1 lon1 lat2 lon2 : ℚ) : ℝ :=
  let dLon : ℝ := ((lon2 : ℝ) - (lon1 : ℝ)) * π / 180
  let lat1r : ℝ := (lat1 : ℝ) * π / 180
  let lat2r : ℝ := (lat2 : ℝ) * π / 180
  let x := Real.sin dLon * Real.cos lat2r
  let y := Real.cos lat1r * Real.sin lat2r - Real.sin lat1r * Real.cos lat2r * Real.cos dLon
  jsRem (atan2 x y * 180 / π + 360) 360

/-- The index sequence of the worker loop
`for (i = step; i < n - 1; i += step)`: the iterates are
`step, 2*step, ...` while they stay below `n - 1`, so exactly the
multiples `(m+1)*step` for `m < (n-2)/step`. -/
def loopIdxs (step n : ℕ) : List ℕ :=
  (List.range ((n - 2) / step)).map (fun m => (m + 1) * step)

/-- `computeArrowBearings` message of the route worker (lines 133-155):
stride `max(1, floor(points.length / 8))`; one entry per loop iterate,
positioned at the sampled point, bearing from the previous sample. -/
noncomputable def computeArrowBearings (points : List (ℚ × ℚ)) : List ArrowBearing :=
  let n := points.length
  let step := max 1 (n / 8)
  (loopIdxs step n).map (fun i =>
    let p1 := points.getD (i - 1) (0, 0)
    let p2 := points.getD i (0, 0)
    { lat := p2.1, lon := p2.2, bearing := bearingDeg p1.1 p1.2 p2.1 p2.2 })

/-- `filterNoisyGps` inner loop: `prev` is the last kept fix; a fix is
kept exactly when its haversine distance (metres, `R = 6371000`) from
`prev` is at least `minDist`. -/
noncomputable def filterGo (prev : ℚ × ℚ) (minDist : ℚ) : List (ℚ × ℚ) → List (ℚ × ℚ)
  | [] => []
  | cur :: rest =>
    if (minDist : ℝ) ≤ haversineR 6371000 (prev.1 : ℝ) (prev.2 : ℝ) (cur.1 : ℝ) (cur.2 : ℝ)
    then cur :: filterGo cur minDist rest
    else filterGo prev minDist rest

/-- `filterNoisyGps` message of the route worker (lines 194-214): keep the
first fix unconditionally, then run the greedy single pass. Fixes are
`(lat, lon)` pairs. -/
noncomputable def filterNoisyGps (rawPoints : List (ℚ × ℚ)) (minDist : ℚ) : List (ℚ × ℚ) :=
  match rawPoints with
  | [] => []
  | p :: rest => p :: filterGo p minDist rest

/-! ## Decimal rendering (JavaScript `Number.prototype.toFixed(5)`)

`routeCache.ts` builds its cache key from `s.lon.toFixed(5)` and
`s.lat.toFixed(5)`.  `toFixed` takes the sign first, then rounds the
absolute value to an integer number of hundred-thousandths (ties away
from zero upward) and prints it with exactly five digits after the
decimal point.  We render at the level of character lists. -/

def digitList : List Char := ['0', '1', '2', '3', '4', '5', '6', '7', '8', '9']

/-- Decimal digits of `n`, most significant first; `0` renders as `"0"`. -/
def natChars (n : ℕ) : List Char :=
  if n = 0 then ['0'] else ((Nat.digits 10 n).map Nat.digitChar).reverse

def digitVal (c : Char) : ℕ := c.toNat - '0'.toNat

/-- Reads a digit string back to the number it denotes (used only to prove
that the renderer is injective). -/
def parseNat (l : List Char) : ℕ := Nat.ofDigits 10 (l.reverse.map digitVal)

/-- The fractional block of `toFixed(5)`: five digits, zero padded. -/
def pad5 (n : ℕ) : List Char := List.replicate (5 - (natChars n).length) '0' ++ natChars n

/-- Characters of `toFixed(5)` output: sign, integer digits, dot, five
fraction digits. -/
def intFixed5Chars (neg : Bool) (n : ℕ) : List Char :=
  (if neg then ['-'] else []) ++ natChars (n / 100000) ++ '.' :: pad5 (n % 100000)

/-- The rounded fixed-point representative of a JS number under
`toFixed(5)`: its sign and the rounded count of hundred-thousandths. -/
def fixedRep (q : ℚ) : Bool × ℕ := (decide (q < 0), (round (|q| * 100000)).toNat)

/-- `q.toFixed(5)` as a character list. -/
def toFixed5 (q : ℚ) : List Char := intFixed5Chars (fixedRep q).1 (fixedRep q).2

/-! ## RouteCache (routeCache.ts) -/

/-- A stop coordinate as used by `routeCache.ts`. -/
structure Stop where
  lat : ℚ
  lon : ℚ

/-- The coordinate part of one stop inside the cache key:
`lon.toFixed(5) + "," + lat.toFixed(5)`. -/
def stopChars (s : Stop) : List Char := toFixed5 s.lon ++ ',' :: toFixed5 s.lat

/-- `Array.prototype.join(";")`. -/
def joinSemi : List (List Char) → List Char
  | [] => []
  | [x] => x
  | x :: y :: ys => x ++ ';' :: joinSemi (y :: ys)

/-- `makeKey` of `routeCache.ts` (lines 20-22):
`profile + ":" + stops.map(lon.toFixed(5) + "," + lat.toFixed(5)).join(";")`. -/
def makeKey (stops : List Stop) (profile : String) : String :=
  ⟨profile.data ++ ':' :: joinSemi (stops.map stopChars)⟩

/-- The pair of fixed-point representatives (lon first) that determines
a stop's contribution to the key. -/
def fixedPair (s : Stop) : (Bool × ℕ) × (Bool × ℕ) := (fixedRep s.lon, fixedRep s.lat)

/-- The stored value: `{points, distanceKm, cachedAt}`. -/
structure CachedRoute where
  points : List (ℚ × ℚ)
  distanceKm : ℚ
  cachedAt : ℤ
deriving DecidableEq

/-- The `set` argument omits `cachedAt` (TypeScript `Omit`). -/
structure RouteData where
  points : List (ℚ × ℚ)
  distanceKm : ℚ

/-- First-match association-list lookup: `Map.get` and
`sessionStorage.getItem` over the modelled stores. -/
def lookupA {α : Type} : List (String × α) → String → Option α
  | [], _ => none
  | (k2, v) :: t, k => if k2 = k then some v else lookupA t k

/-- The two-tier cache state: `_mem` (tier 1), `sessionStorage` (tier 2,
where `some v` is a well-formed JSON entry and `none` an entry whose
parse throws), and whether tier-2 writes fail with a quota error. -/
structure RCState where
  mem : List (String × CachedRoute)
  sess : List (String × Option CachedRoute)
  quotaFull : Bool
deriving DecidableEq

/-- The `btrc_` prefixing of tier-2 keys. -/
def sessKey (k : String) : String := "btrc_" ++ k

def RCState.init : RCState := ⟨[], [], false⟩

/-- `RouteCache.get` (routeCache.ts lines 25-33): tier-1 first; on miss,
tier-2 with promotion into tier-1; a corrupt tier-2 entry is swallowed
(`catch`) and treated as a miss.  Returns the result and the updated
state (`_mem` mutation made explicit). -/
def RouteCache.get (st : RCState) (stops : List Stop) (profile : String) :
    Option CachedRoute × RCState :=
  let key := makeKey stops profile
  match lookupA st.mem key with
  | some v => (some v, st)
  | none =>
    match lookupA st.sess (sessKey key) with
    | some (some v) => (some v, { st with mem := (key, v) :: st.mem })
    | some none => (none, st)
    | none => (none, st)

/-- `RouteCache.set` (lines 35-40): writes tier 1, stamps `cachedAt` with
the current time, and best-effort writes tier 2 (a quota failure is
swallowed and leaves tier 2 unchanged). -/
def RouteCache.set (st : RCState) (stops : List Stop) (data : RouteData)
    (profile : String) (now : ℤ) : RCState :=
  let key := makeKey stops profile
  let entry : CachedRoute := ⟨data.points, data.distanceKm, now⟩
  { mem := (key, entry) :: st.mem
    sess := if st.quotaFull then st.sess else (sessKey key, some entry) :: st.sess
    quotaFull := st.quotaFull }

/-- One route of the OSRM response used by `prewarm`. -/
structure OsrmRouteQ where
  coordinates : List (ℚ × ℚ)
  distance : ℚ

/-- The parsed OSRM response body (`data.routes`). -/
structure OsrmPayload where
  routes : List OsrmRouteQ

/-- `RouteCache.prewarm` (lines 42-50).  The routing provider is an
oracle from the `(lon,lat)` waypoint list and profile (which determine
the request URL) to either a parsed body or a rejection of the
`fetch`/`json()` chain; the surrounding code has no try/catch, so a
rejection propagates to the returned promise, modelled as `.error`. -/
def RouteCache.prewarm (fetchRoute : List (ℚ × ℚ) → String → Except String OsrmPayload)
    (st : RCState) (stops : List Stop) (profile : String) (now : ℤ) :
    Except String RCState :=
  match RouteCache.get st stops profile with
  | (some _, st2) => .ok st2
  | (none, st2) =>
    match fetchRoute (stops.map (fun s => (s.lon, s.lat))) profile with
    | .error e => .error e
    | .ok data =>
      match data.routes with
      | [] => .ok st2
      | r :: _ =>
        .ok (RouteCache.set st2 stops
          ⟨r.coordinates.map (fun c => (c.2, c.1)), r.distance / 1000⟩ profile now)

/-! ## GeocodeResolver (geoValidator.ts) -/

/-- `String.prototype.trim()`. -/
def jsTrim (s : String) : String :=
  ⟨((s.data.dropWhile Char.isWhitespace).reverse.dropWhile Char.isWhitespace).reverse⟩

/-- `String.prototype.toLowerCase()`. -/
def jsLower (s : String) : String := ⟨s.data.map Char.toLower⟩

/-- One Nominatim candidate: parsed `lat`/`lon`, the two `namedetails`
entries the code reads (absent when the key is missing), and
`display_name`. -/
structure Candidate where
  lat : ℚ
  lon : ℚ
  ndName : Option String
  ndNameEn : Option String
  displayName : String

/-- JavaScript `x || y` over possibly-missing strings: an absent value
and the empty string are both falsy. -/
def jsStringOr (x : Option String) (y : String) : String :=
  match x with
  | some s => if s = "" then y else s
  | none => y

/-- `nd["name"] || nd["name:en"] || best.display_name.split(",")[0].trim()`
(geoValidator.ts line 48 and routeResolver.ts line 166). -/
def correctedOf (c : Candidate) : String :=
  jsStringOr c.ndName (jsStringOr c.ndNameEn (jsTrim ((c.displayName.splitOn ",").headD "")))

/-- Candidate selection shared by geoValidator.ts lines 40-45 and
routeResolver.ts lines 156-163: the provider's top candidate, unless an
anchor exists and more than one candidate came back, in which case
`reduce` keeps whichever of two candidates has the not-larger haversine
distance to the anchor. -/
noncomputable def pickBest (anchor : Option (ℚ × ℚ)) (r0 : Candidate)
    (rest : List Candidate) : Candidate :=
  match anchor, rest with
  | some a, _ :: _ =>
    rest.foldl (fun x y =>
      if haversineR 6371 (a.1 : ℝ) (a.2 : ℝ) (x.lat : ℝ) (x.lon : ℝ)
          ≤ haversineR 6371 (a.1 : ℝ) (a.2 : ℝ) (y.lat : ℝ) (y.lon : ℝ)
      then x else y) r0
  | _, _ => r0

/-- A successful geocode: `{lat, lon, corrected}`. -/
structure GeoResult where
  lat : ℚ
  lon : ℚ
  corrected : String
deriving DecidableEq

/-- The module-level `_cache`: normalized name to result-or-null. -/
abbrev GeoCache := List (String × Option GeoResult)

/-- The three query variants of `geocodeStop` (lines 28-32). -/
def clientQueries (name : String) : List String :=
  [name ++ " bus stand Tamil Nadu India", name ++ " bus stand India", name ++ " India"]

/-- The query loop of `geocodeStop` (lines 34-55).  The Nominatim
response is an oracle from the query text (which determines the request
URL); fetch or parse failures yield `[]` via the `.catch(() => [])` in
the source, so the oracle is total.  Returns the result, the updated
cache, and the number of provider requests issued. -/
noncomputable def geocodeQueries (oracle : String → List Candidate) (cache : GeoCache)
    (cacheKey : String) (anchor : Option (ℚ × ℚ)) :
    List String → Option GeoResult × GeoCache × ℕ
  | [] => (none, (cacheKey, none) :: cache, 0)
  | q :: qs =>
    match oracle q with
    | [] =>
      let r := geocodeQueries oracle cache cacheKey anchor qs
      (r.1, r.2.1, r.2.2 + 1)
    | r0 :: rest =>
      let best := pickBest anchor r0 rest
      let res : GeoResult := ⟨best.lat, best.lon, correctedOf best⟩
      (some res, (cacheKey, some res) :: cache, 1)

/-- `geocodeStop` (lines 21-56): cache-first by the trimmed, lowercased
name; on a miss, run the query loop (which always caches its outcome,
a failure included). -/
noncomputable def geocodeStop (oracle : String → List Candidate) (cache : GeoCache)
    (name : String) (anchor : Option (ℚ × ℚ)) : Option GeoResult × GeoCache × ℕ :=
  let cacheKey := jsLower (jsTrim name)
  match lookupA cache cacheKey with
  | some v => (v, cache, 0)
  | none => geocodeQueries oracle cache cacheKey anchor (clientQueries name)

/-- The sequence loop of `geocodeStopSequence` (lines 58-69): the anchor
is set from the first successful result and never overwritten
(`if (r && !anchor) anchor = r`). -/
noncomputable def seqGo (oracle : String → List Candidate) :
    List String → GeoCache → Option (ℚ × ℚ) → List (Option GeoResult) →
    List (Option GeoResult) × GeoCache
  | [], cache, _, acc => (acc, cache)
  | n :: ns, cache, anchor, acc =>
    let r := geocodeStop oracle cache n anchor
    let anchor2 := match anchor, r.1 with
      | none, some g => some (g.lat, g.lon)
      | a, _ => a
    seqGo oracle ns r.2.1 anchor2 (acc ++ [r.1])

/-- `geocodeStopSequence` (lines 58-69). -/
noncomputable def geocodeStopSequence (oracle : String → List Candidate)
    (cache : GeoCache) (names : List String) : List (Option GeoResult) × GeoCache :=
  seqGo oracle names cache none []

/-- The coordinate of the first successful result in a result list. -/
def firstResolvedCoord : List (Option GeoResult) → Option (ℚ × ℚ)
  | [] => none
  | some g :: _ => some (g.lat, g.lon)
  | none :: t => firstResolvedCoord t

/-- Modelled from the spec wording of section 4.1 for comparison: the
sequence loop where the anchor handed to each stop is recomputed as the
coordinate of the first successfully resolved stop so far. -/
noncomputable def seqFixedSpecGo (oracle : String → List Candidate) :
    List String → GeoCache → List (Option GeoResult) →
    List (Option GeoResult) × GeoCache
  | [], cache, acc => (acc, cache)
  | n :: ns, cache, acc =>
    let r := geocodeStop oracle cache n (firstResolvedCoord acc)
    seqFixedSpecGo oracle ns r.2.1 (acc ++ [r.1])

/-! ## EdgeRouteResolver (routeResolver.ts) -/

/-- A stop resolved by the edge function. -/
structure ResolvedStop where
  name : String
  corrected : String
  lat : ℚ
  lon : ℚ
deriving DecidableEq

/-- The four query variants (routeResolver.ts lines 140-145) are indexed
0..3; the Nominatim response is an oracle from the raw stop name and the
variant index, which together determine the query string built via
`normalizeName`.  A `.error` models a rejected `fetch` (not caught
locally); a parse failure yields `[]` via `.catch(() => [])`. -/
def edgeQueryIdxs : List ℕ := [0, 1, 2, 3]

/-- The inner query loop for one stop (lines 147-175): first variant
with a nonempty candidate list wins; candidate choice via the shared
anchor-nearest rule; exhausting all variants resolves to nothing
(line 177, the stop is skipped). -/
noncomputable def geocodeOneEdge (nom : String → ℕ → Except String (List Candidate))
    (rawName : String) (anchor : Option (ℚ × ℚ)) :
    List ℕ → Except String (Option ResolvedStop)
  | [] => .ok none
  | i :: is =>
    match nom rawName i with
    | .error e => .error e
    | .ok [] => geocodeOneEdge nom rawName anchor is
    | .ok (r0 :: rest) =>
      let best := pickBest anchor r0 rest
      .ok (some ⟨rawName, correctedOf best, best.lat, best.lon⟩)

/-- The stop loop of the edge handler, Step 3 (lines 130-182): after
every resolved stop the anchor is overwritten with that stop's
coordinate (`anchorLat = lat; anchorLon = lon`). -/
noncomputable def edgeGeocodeLoop (nom : String → ℕ → Except String (List Candidate)) :
    List String → Option (ℚ × ℚ) → List ResolvedStop → Except String (List ResolvedStop)
  | [], _, acc => .ok acc
  | s :: ss, anchor, acc =>
    match geocodeOneEdge nom (jsTrim s) anchor edgeQueryIdxs with
    | .error e => .error e
    | .ok none => edgeGeocodeLoop nom ss anchor acc
    | .ok (some r) => edgeGeocodeLoop nom ss (some (r.lat, r.lon)) (acc ++ [r])

/-- Modelled from the spec wording of sections 4.1/4.3 for comparison:
the same loop with the anchor set once, from the first successfully
resolved stop, and held fixed afterwards. -/
noncomputable def edgeGeocodeLoopFixedAnchor
    (nom : String → ℕ → Except String (List Candidate)) :
    List String → Option (ℚ × ℚ) → List ResolvedStop → Except String (List ResolvedStop)
  | [], _, acc => .ok acc
  | s :: ss, anchor, acc =>
    match geocodeOneEdge nom (jsTrim s) anchor edgeQueryIdxs with
    | .error e => .error e
    | .ok none => edgeGeocodeLoopFixedAnchor nom ss anchor acc
    | .ok (some r) =>
      edgeGeocodeLoopFixedAnchor nom ss
        (match anchor with
          | none => some (r.lat, r.lon)
          | some a => some a)
        (acc ++ [r])

/-- The coordinate of the most recently resolved stop. -/
def lastResolvedCoord (acc : List ResolvedStop) : Option (ℚ × ℚ) :=
  match acc.getLast? with
  | some r => some (r.lat, r.lon)
  | none => none

/-- The edge loop where the anchor handed to each stop is recomputed as
the most recently resolved stop's coordinate (the policy the edge code
actually implements, stated anchor-free for comparison). -/
noncomputable def edgeSeqLastSpec (nom : String → ℕ → Except String (List Candidate)) :
    List String → List ResolvedStop → Except String (List ResolvedStop)
  | [], acc => .ok acc
  | s :: ss, acc =>
    match geocodeOneEdge nom (jsTrim s) (lastResolvedCoord acc) edgeQueryIdxs with
    | .error e => .error e
    | .ok none => edgeSeqLastSpec nom ss acc
    | .ok (some r) => edgeSeqLastSpec nom ss (acc ++ [r])

/-- A concrete Nominatim oracle: three stops on the equator; the first
two resolve uniquely (at longitudes 0 and 10), the third is ambiguous
between a candidate at longitude 0 and one at longitude 10. -/
def nomThreeStops : String → ℕ → Except String (List Candidate) := fun name i =>
  if name = "S1" ∧ i = 0 then .ok [⟨0, 0, some "P1", none, "P1"⟩]
  else if name = "S2" ∧ i = 0 then .ok [⟨0, 10, some "P2", none, "P2"⟩]
  else if name = "S3" ∧ i = 0 then
    .ok [⟨0, 0, some "C0", none, "C0"⟩, ⟨0, 10, some "D10", none, "D10"⟩]
  else .ok []

/-- The POST body of the edge function. -/
structure ResolveRequest where
  busId : Option ℤ
  busName : Option String
  stops : Option (List String)

/-- One OSRM route: GeoJSON `(lon,lat)` coordinates, metres, seconds. -/
structure OsrmRoute where
  coordinates : List (ℚ × ℚ)
  distance : ℚ
  duration : ℚ

/-- The parsed OSRM response of the edge function. -/
structure OsrmData where
  routes : List OsrmRoute

/-- The 200 payload (`RouteResponse` in routeResolver.ts). -/
structure RouteResponse where
  busId : Option ℤ
  busName : Option String
  stops : List ResolvedStop
  geometry : List (ℚ × ℚ)
  distanceKm : ℚ
  durationSec : ℚ
  cachedAt : String
  fromCache : Bool
deriving DecidableEq

/-- A response body: empty (204), an error object, or a route payload. -/
inductive RespBody where
  | noContent
  | errMsg (error : String) (detail : Option String)
  | route (r : RouteResponse)
deriving DecidableEq

/-- An HTTP response of the edge function. -/
structure EdgeResponse where
  status : ℕ
  body : RespBody
deriving DecidableEq

/-- A `kv.set(key, value, expireIn)` performed by the handler. -/
structure KvWrite where
  key : String
  value : RouteResponse
  expireIn : ℕ
deriving DecidableEq

/-- The external world of the edge handler: the Supabase record store
(by busId; `ok none` = no rows), whether `Deno.openKv()` succeeded, the
KV store, Nominatim, OSRM (keyed by the waypoint list that determines
the URL), and the current `new Date().toISOString()`. -/
structure EdgeEnv where
  db : ℤ → Except String (Option (List String))
  kvAvailable : Bool
  kvGet : String → Except String (Option RouteResponse)
  nom : String → ℕ → Except String (List Candidate)
  osrm : List (ℚ × ℚ) → Except String OsrmData
  nowIso : String

/-- The character filter of the cache key:
`replace(/[^a-z0-9|]/gi, "_")`. -/
def sanitizeCh (c : Char) : Char :=
  if ('a' ≤ c ∧ c ≤ 'z') ∨ ('A' ≤ c ∧ c ≤ 'Z') ∨ ('0' ≤ c ∧ c ≤ '9') ∨ c = '|'
  then c else '_'

/-- `Array.prototype.join` with an arbitrary separator character. -/
def joinWith (sep : Char) : List (List Char) → List Char
  | [] => []
  | [x] => x
  | x :: y :: ys => x ++ sep :: joinWith sep (y :: ys)

/-- The edge cache key (line 116):
`"route_" + stops.join("|").replace(/[^a-z0-9|]/gi, "_").slice(0, 200)`. -/
def edgeCacheKey (stops : List String) : String :=
  "route_" ++ ⟨((joinWith '|' (stops.map String.data)).map sanitizeCh).take 200⟩

/-- JavaScript truthiness of `body.busId`: absent and `0` are falsy. -/
def jsTruthyInt : Option ℤ → Bool
  | some n => decide (n ≠ 0)
  | none => false

/-- Step 1 (lines 95-109): a nonempty direct `stops` list short-circuits;
otherwise a truthy `busId` is looked up in the record store (`ok none`
means the 404 branch); otherwise the empty list flows on (to fail the
length check). -/
def resolveStopNames (db : ℤ → Except String (Option (List String)))
    (b : ResolveRequest) : Except String (Option (List String)) :=
  let stops0 := b.stops.getD []
  if stops0.isEmpty && jsTruthyInt b.busId then
    match db (b.busId.getD 0) with
    | .error e => .error e
    | .ok none => .ok none
    | .ok (some s) => .ok (some s)
  else .ok (some stops0)

/-- Steps 3-6 on a cache miss (lines 129-220): geocode all stops with
the anchor loop, fail 422 below two resolutions, route via OSRM, fail
502 on an empty route list, otherwise build the response (coordinates
flipped to `(lat,lon)`, metres to kilometres) and, when KV is
available, store it with the 24-hour `expireIn`. -/
noncomputable def handlerMiss (env : EdgeEnv) (b : ResolveRequest)
    (stops : List String) (key : String) :
    Except String (EdgeResponse × List KvWrite) :=
  match edgeGeocodeLoop env.nom stops none [] with
  | .error e => .error e
  | .ok resolved =>
    if resolved.length < 2 then
      .ok (⟨422, .errMsg "Could not geocode enough stops" none⟩, [])
    else
      match env.osrm (resolved.map (fun s => (s.lon, s.lat))) with
      | .error e => .error e
      | .ok data =>
        match data.routes with
        | [] => .ok (⟨502, .errMsg "OSRM returned no routes" none⟩, [])
        | rt :: _ =>
          let response : RouteResponse :=
            ⟨b.busId, b.busName, resolved,
             rt.coordinates.map (fun c => (c.2, c.1)),
             rt.distance / 1000, rt.duration, env.nowIso, false⟩
          .ok (⟨200, .route response⟩,
               if env.kvAvailable then [⟨key, response, 86400000⟩] else [])

/-- The body of the outer `try` (lines 93-220): stop-name resolution,
the under-2 check, the KV lookup (hit returns the stored value with
`fromCache` forced true and performs no store), then the miss path. -/
noncomputable def handlerTry (env : EdgeEnv) (b : ResolveRequest) :
    Except String (EdgeResponse × List KvWrite) :=
  match resolveStopNames env.db b with
  | .error e => .error e
  | .ok none => .ok (⟨404, .errMsg "Bus not found" none⟩, [])
  | .ok (some stops) =>
    if stops.length < 2 then
      .ok (⟨400, .errMsg "At least 2 stops required" none⟩, [])
    else
      let key := edgeCacheKey stops
      if env.kvAvailable then
        match env.kvGet key with
        | .error e => .error e
        | .ok (some v) => .ok (⟨200, .route { v with fromCache := true }⟩, [])
        | .ok none => handlerMiss env b stops key
      else handlerMiss env b stops key

/-- The full handler (lines 69-226): CORS preflight, method check, JSON
body parse (an unparseable body is the 400 before the `try`), and the
`catch` that converts any propagated failure into the 500 response. -/
noncomputable def handler (env : EdgeEnv) (method : String)
    (body : Except String ResolveRequest) : EdgeResponse × List KvWrite :=
  if method = "OPTIONS" then (⟨204, .noContent⟩, [])
  else if method ≠ "POST" then (⟨405, .errMsg "Method not allowed" none⟩, [])
  else
    match body with
    | .error _ => (⟨400, .errMsg "Invalid JSON body" none⟩, [])
    | .ok b =>
      match handlerTry env b with
      | .ok r => r
      | .error e => (⟨500, .errMsg "Internal server error" (some e)⟩, [])

/-- Concrete oracles for instantiating the edge handler theorems. -/
def dbEmpty : ℤ → Except String (Option (List String)) := fun _ => .ok none

def kvEmpty : String → Except String (Option RouteResponse) := fun _ => .ok none

def nomEmpty : String → ℕ → Except String (List Candidate) := fun _ _ => .ok []

def osrmEmpty : List (ℚ × ℚ) → Except String OsrmData := fun _ => .ok ⟨[]⟩

/-- A bare environment: no records, no KV, no geocodes, no routes. -/
def envBare : EdgeEnv :=
  ⟨dbEmpty, false, kvEmpty, nomEmpty, osrmEmpty, "2026-02-03T00:00:00.000Z"⟩

/-- A Nominatim oracle resolving the stops "A" and "B" uniquely. -/
def nomAB : String → ℕ → Except String (List Candidate) := fun name i =>
  if name = "A" ∧ i = 0 then .ok [⟨9, 77, some "A1", none, "A1"⟩]
  else if name = "B" ∧ i = 0 then .ok [⟨10, 78, some "B1", none, "B1"⟩]
  else .ok []

/-- An environment whose KV store holds an entry for every key. -/
def envHit : EdgeEnv := { envBare with
  kvAvailable := true
  kvGet := fun _ => .ok (some ⟨none, none, [], [], 1, 2, "t0", false⟩) }

/-- An environment with an available but empty KV store, working
geocoding for the stops "A" and "B", and one OSRM route. -/
def envStore : EdgeEnv := { envBare with
  kvAvailable := true
  nom := nomAB
  osrm := fun _ => .ok ⟨[⟨[(78, 10), (77, 9)], 5000, 600⟩]⟩ }

/-! ## Theorems -/

theorem atan2_zero_one : atan2 0 1 = 0 := by
  simp [atan2]

/-- The distance from a point to itself is zero. -/
theorem haversineR_self (R lat lon : ℝ) : haversineR R lat lon lat lon = 0 := by
  simp [haversineR, atan2_zero_one]

/-- The haversine formula is symmetric in its two points. -/
theorem haversineR_comm (R a b c d : ℝ) :
    haversineR R a b c d = haversineR R c d a b := by
  simp only [haversineR]
  have h1 : (a - c) * π / 180 / 2 = -((c - a) * π / 180 / 2) := by ring
  have h2 : (b - d) * π / 180 / 2 = -((d - b) * π / 180 / 2) := by ring
  rw [h1, h2, Real.sin_neg, Real.sin_neg]
  ring_nf

/-- On the equator the haversine distance is exactly `R` times the
longitude difference in radians (for a nonnegative difference smaller
than a half turn). -/
theorem haversineR_equator (R o1 o2 : ℝ) (h0 : 0 ≤ o2 - o1)
    (h1 : (o2 - o1) * π / 360 < π / 2) :
    haversineR R 0 o1 0 o2 = R * 2 * ((o2 - o1) * π / 360) := by
  have hθ0 : 0 ≤ (o2 - o1) * π / 360 := by positivity
  set θ : ℝ := (o2 - o1) * π / 360 with hθ
  have hsin : 0 ≤ Real.sin θ := by
    apply Real.sin_nonneg_of_nonneg_of_le_pi hθ0
    have : π / 2 ≤ π := by linarith [Real.pi_pos]
    linarith
  have hcos : 0 < Real.cos θ := by
    apply Real.cos_pos_of_mem_Ioo
    constructor
    · linarith [Real.pi_pos]
    · exact h1
  simp only [haversineR]
  have hd : (o2 - o1) * π / 180 / 2 = θ := by rw [hθ]; ring
  have hz : (0 - 0 : ℝ) * π / 180 / 2 = 0 := by ring
  rw [hz, hd]
  have hc0 : (0 : ℝ) * π / 180 = 0 := by ring
  rw [hc0]
  simp only [Real.sin_zero, Real.cos_zero]
  have ha : (0 : ℝ) ^ 2 + 1 * 1 * Real.sin θ ^ 2 = Real.sin θ ^ 2 := by ring
  rw [ha]
  have hs : Real.sqrt (Real.sin θ ^ 2) = Real.sin θ := Real.sqrt_sq hsin
  have hc : (1 : ℝ) - Real.sin θ ^ 2 = Real.cos θ ^ 2 := by
    have := Real.sin_sq_add_cos_sq θ
    linarith
  rw [hs, hc, Real.sqrt_sq hcos.le]
  have hb : atan2 (Real.sin θ) (Real.cos θ) = θ := by
    unfold atan2
    rw [if_pos hcos]
    rw [← Real.tan_eq_sin_div_cos]
    apply Real.arctan_tan
    · linarith [Real.pi_pos]
    · exact h1
  rw [hb]

theorem digitVal_digitChar {d : ℕ} (hd : d < 10) : digitVal (Nat.digitChar d) = d := by
  interval_cases d <;> rfl

theorem digitChar_mem_digitList {d : ℕ} (hd : d < 10) : Nat.digitChar d ∈ digitList := by
  interval_cases d <;> decide

theorem parseNat_natChars (n : ℕ) : parseNat (natChars n) = n := by
  by_cases h : n = 0
  · subst h; rfl
  · simp only [natChars, if_neg h, parseNat, List.reverse_reverse, List.map_map]
    have : ((Nat.digits 10 n).map (digitVal ∘ Nat.digitChar))
        = (Nat.digits 10 n).map id := by
      apply List.map_congr_left
      intro d hd
      exact digitVal_digitChar (Nat.digits_lt_base (by norm_num) hd)
    rw [this, List.map_id, Nat.ofDigits_digits]

theorem natChars_mem {c : Char} {n : ℕ} (h : c ∈ natChars n) : c ∈ digitList := by
  by_cases h0 : n = 0
  · subst h0; simp [natChars] at h; subst h; decide
  · simp only [natChars, if_neg h0, List.mem_reverse, List.mem_map] at h
    obtain ⟨d, hd, rfl⟩ := h
    exact digitChar_mem_digitList (Nat.digits_lt_base (by norm_num) hd)

theorem natChars_ne_nil (n : ℕ) : natChars n ≠ [] := by
  by_cases h0 : n = 0
  · subst h0; simp [natChars]
  · simp only [natChars, if_neg h0]
    simp [List.reverse_eq_nil_iff, Nat.digits_ne_nil_iff_ne_zero, h0]

theorem ofDigits_replicate_zero (k : ℕ) : Nat.ofDigits 10 (List.replicate k 0) = 0 := by
  induction k with
  | zero => rfl
  | succ m ih => simp [List.replicate_succ, Nat.ofDigits_cons, ih]

theorem parseNat_pad5 (n : ℕ) : parseNat (pad5 n) = n := by
  simp only [pad5, parseNat, List.reverse_append, List.map_append, Nat.ofDigits_append]
  have hz : (List.replicate (5 - (natChars n).length) '0').reverse.map digitVal
      = List.replicate (5 - (natChars n).length) 0 := by
    rw [List.reverse_replicate, List.map_replicate]
    rfl
  rw [hz, ofDigits_replicate_zero]
  have := parseNat_natChars n
  simp only [parseNat] at this
  simpa using this

theorem pad5_mem {c : Char} {n : ℕ} (h : c ∈ pad5 n) : c ∈ digitList := by
  simp only [pad5, List.mem_append, List.mem_replicate] at h
  rcases h with ⟨_, rfl⟩ | h
  · decide
  · exact natChars_mem h

/-- Splitting at a separator character that occurs in neither prefix is
unambiguous. -/
theorem append_sep_inj {s : Char} :
    ∀ {x1 x2 y1 y2 : List Char}, s ∉ x1 → s ∉ x2 →
      x1 ++ s :: y1 = x2 ++ s :: y2 → x1 = x2 ∧ y1 = y2 := by
  intro x1
  induction x1 with
  | nil =>
    intro x2 y1 y2 _ h2 he
    cases x2 with
    | nil => simpa using he
    | cons c t =>
      simp only [List.nil_append, List.cons_append, List.cons.injEq] at he
      exact absurd (he.1 ▸ List.mem_cons_self c t) h2
  | cons a t1 ih =>
    intro x2 y1 y2 h1 h2 he
    cases x2 with
    | nil =>
      simp only [List.cons_append, List.nil_append, List.cons.injEq] at he
      exact absurd (he.1 ▸ List.mem_cons_self a t1) (he.1 ▸ h1)
    | cons c t2 =>
      simp only [List.cons_append, List.cons.injEq] at he
      have h1' : s ∉ t1 := fun hm => h1 (List.mem_cons_of_mem a hm)
      have h2' : s ∉ t2 := fun hm => h2 (List.mem_cons_of_mem c hm)
      obtain ⟨ht, hy⟩ := ih h1' h2' he.2
      exact ⟨by rw [he.1, ht], hy⟩

theorem natChars_not_dot {n : ℕ} : '.' ∉ natChars n := by
  intro h
  have := natChars_mem h
  simp [digitList] at this

theorem intFixed5Chars_inj {g1 g2 : Bool} {n1 n2 : ℕ}
    (h : intFixed5Chars g1 n1 = intFixed5Chars g2 n2) : g1 = g2 ∧ n1 = n2 := by
  have core : ∀ {m1 m2 : ℕ},
      natChars (m1 / 100000) ++ '.' :: pad5 (m1 % 100000)
        = natChars (m2 / 100000) ++ '.' :: pad5 (m2 % 100000) → m1 = m2 := by
    intro m1 m2 hc
    obtain ⟨hhi, hlo⟩ := append_sep_inj natChars_not_dot natChars_not_dot hc
    have e1 : m1 / 100000 = m2 / 100000 := by
      have := congrArg parseNat hhi
      rwa [parseNat_natChars, parseNat_natChars] at this
    have e2 : m1 % 100000 = m2 % 100000 := by
      have := congrArg parseNat hlo
      rwa [parseNat_pad5, parseNat_pad5] at this
    omega
  have headDigit : ∀ (mh ml : ℕ) (r : List Char), '-' :: r ≠ natChars mh ++ '.' :: pad5 ml := by
    intro mh ml r he
    cases hn : natChars mh with
    | nil => exact natChars_ne_nil mh hn
    | cons c t =>
      rw [hn] at he
      simp only [List.cons_append, List.cons.injEq] at he
      have : c ∈ natChars mh := by rw [hn]; exact List.mem_cons_self c t
      have := natChars_mem this
      rw [← he.1] at this
      simp [digitList] at this
  cases g1 <;> cases g2 <;> simp only [intFixed5Chars, Bool.false_eq_true,
    if_true, if_false, List.nil_append, List.cons_append, List.singleton_append] at h
  · exact ⟨rfl, core h⟩
  · exact absurd h.symm (by intro hx; exact headDigit _ _ _ hx)
  · exact absurd h (by intro hx; exact headDigit _ _ _ hx)
  · simp only [List.cons.injEq, true_and] at h
    exact ⟨rfl, core h⟩

/-- Evaluates `fixedRep` at a concrete nonnegative rational. -/
theorem fixedRep_eval_nonneg (q : ℚ) (k : ℕ) (h0 : 0 ≤ q)
    (h1 : (k : ℚ) ≤ q * 100000 + 1 / 2) (h2 : q * 100000 + 1 / 2 < k + 1) :
    fixedRep q = (false, k) := by
  have hb : decide (q < 0) = false := decide_eq_false (not_lt.mpr h0)
  have hfl : ⌊|q| * 100000 + 1 / 2⌋ = (k : ℤ) := by
    rw [abs_of_nonneg h0]
    rw [Int.floor_eq_iff]
    constructor
    · exact_mod_cast h1
    · push_cast
      exact h2
  simp only [fixedRep, round_eq, hb, hfl, Int.toNat_natCast]

theorem intFixed5Chars_mem {c : Char} {g : Bool} {n : ℕ}
    (h : c ∈ intFixed5Chars g n) : c ∈ '-' :: '.' :: digitList := by
  simp only [intFixed5Chars, List.mem_append, List.mem_cons] at h
  rcases h with (h | h) | h | h
  · cases g <;> simp_all
  · exact List.mem_cons_of_mem _ (List.mem_cons_of_mem _ (natChars_mem h))
  · simp [h]
  · exact List.mem_cons_of_mem _ (List.mem_cons_of_mem _ (pad5_mem h))

theorem toFixed5_not_comma {q : ℚ} : ',' ∉ toFixed5 q := by
  intro h
  have := intFixed5Chars_mem h
  simp [digitList] at this

theorem stopChars_not_semi {s : Stop} : ';' ∉ stopChars s := by
  intro h
  simp only [stopChars, List.mem_append, List.mem_cons] at h
  rcases h with h | h | h
  · have := intFixed5Chars_mem h; simp [digitList] at this
  · exact absurd h (by decide)
  · have := intFixed5Chars_mem h; simp [digitList] at this

theorem stopChars_fixedPair_inj {s t : Stop} (h : stopChars s = stopChars t) :
    fixedPair s = fixedPair t := by
  obtain ⟨h1, h2⟩ := append_sep_inj toFixed5_not_comma toFixed5_not_comma h
  obtain ⟨a1, a2⟩ := intFixed5Chars_inj h1
  obtain ⟨b1, b2⟩ := intFixed5Chars_inj h2
  simp only [fixedPair, fixedRep]
  simp only [toFixed5, fixedRep] at a1 a2 b1 b2
  rw [a1, a2, b1, b2]

theorem makeKey_two_swap_ne {A B : Stop} {p : String}
    (h : fixedPair A ≠ fixedPair B) : makeKey [A, B] p ≠ makeKey [B, A] p := by
  intro he
  have hd : p.data ++ ':' :: joinSemi ([A, B].map stopChars)
      = p.data ++ ':' :: joinSemi ([B, A].map stopChars) := congrArg String.data he
  have he2 := List.cons_injective (List.append_cancel_left hd)
  simp only [List.map_cons, List.map_nil] at he2
  have hj : joinSemi [stopChars A, stopChars B] = stopChars A ++ ';' :: stopChars B := rfl
  have hj2 : joinSemi [stopChars B, stopChars A] = stopChars B ++ ';' :: stopChars A := rfl
  rw [hj, hj2] at he2
  obtain ⟨hab, _⟩ := append_sep_inj stopChars_not_semi stopChars_not_semi he2
  exact h (stopChars_fixedPair_inj hab)

theorem makeKey_round_congr {l1 l2 : List Stop} {p : String}
    (h : l1.map fixedPair = l2.map fixedPair) : makeKey l1 p = makeKey l2 p := by
  have hs : l1.map stopChars = l2.map stopChars := by
    have hfac : ∀ (l : List Stop), l.map stopChars
        = (l.map fixedPair).map (fun r =>
            intFixed5Chars r.1.1 r.1.2 ++ ',' :: intFixed5Chars r.2.1 r.2.2) := by
      intro l
      rw [List.map_map]
      apply List.map_congr_left
      intro s _
      rfl
    rw [hfac, hfac, h]
  simp only [makeKey, hs]

theorem joinSemi_inj : ∀ {xs ys : List (List Char)}, xs.length = ys.length →
    (∀ x ∈ xs, ';' ∉ x) → (∀ y ∈ ys, ';' ∉ y) → joinSemi xs = joinSemi ys → xs = ys := by
  intro xs
  induction xs with
  | nil =>
    intro ys hlen _ _ _
    cases ys with
    | nil => rfl
    | cons b bs => simp at hlen
  | cons a as ih =>
    intro ys hlen hx hy he
    cases ys with
    | nil => simp at hlen
    | cons b bs =>
      cases as with
      | nil =>
        cases bs with
        | nil => simp only [joinSemi] at he; rw [he]
        | cons c cs => simp at hlen
      | cons a2 as2 =>
        cases bs with
        | nil => simp at hlen
        | cons b2 bs2 =>
          simp only [joinSemi] at he
          obtain ⟨h1, h2⟩ := append_sep_inj (hx a (by simp)) (hy b (by simp)) he
          have := ih (by simpa using hlen) (fun x hm => hx x (List.mem_cons_of_mem a hm))
            (fun y hm => hy y (List.mem_cons_of_mem b hm)) h2
          rw [h1, this]

/-- Two equal keys of equally long stop lists come from stop lists with
identical rounded coordinates. -/
theorem makeKey_fixedPair_inj {l1 l2 : List Stop} {p : String}
    (hlen : l1.length = l2.length) (h : makeKey l1 p = makeKey l2 p) :
    l1.map fixedPair = l2.map fixedPair := by
  have hd : p.data ++ ':' :: joinSemi (l1.map stopChars)
      = p.data ++ ':' :: joinSemi (l2.map stopChars) := congrArg String.data h
  have he2 := List.cons_injective (List.append_cancel_left hd)
  have hmaps : l1.map stopChars = l2.map stopChars := by
    apply joinSemi_inj (by simpa using hlen) _ _ he2
    · intro x hm
      obtain ⟨s, _, rfl⟩ := List.mem_map.mp hm
      exact stopChars_not_semi
    · intro y hm
      obtain ⟨s, _, rfl⟩ := List.mem_map.mp hm
      exact stopChars_not_semi
  clear h hd he2 hlen
  induction l1 generalizing l2 with
  | nil => cases l2 with
    | nil => rfl
    | cons b t2 => simp at hmaps
  | cons a t ih =>
    cases l2 with
    | nil => simp at hmaps
    | cons b t2 =>
      simp only [List.map_cons, List.cons.injEq] at hmaps ⊢
      exact ⟨stopChars_fixedPair_inj hmaps.1, ih hmaps.2⟩

/-- C4 counterexample.  The claim fails in both directions at concrete
inputs: two stop sequences whose first stops are 0.0000002 degrees of
latitude apart (≈2 cm, far inside the ~1.1 m rounding precision) get
distinct keys because the jitter straddles the 5-decimal rounding
boundary (0.0000049 rounds to 0.00000, 0.0000051 rounds to 0.00001);
and the reversal of a two-stop sequence whose stops are ≈11 cm apart
yields the same key, not a distinct one, because both stops round to
the same 5-decimal coordinates. -/
theorem makeKey_claim_counterexample :
    (makeKey [⟨0.0000049, 80⟩, ⟨13, 80.1⟩] "driving"
      ≠ makeKey [⟨0.0000051, 80⟩, ⟨13, 80.1⟩] "driving") ∧
    (makeKey [⟨10, 76⟩, ⟨10.000001, 76⟩] "driving"
      = makeKey [⟨10.000001, 76⟩, ⟨10, 76⟩] "driving") := by
  have r49 : fixedRep (0.0000049 : ℚ) = (false, 0) :=
    fixedRep_eval_nonneg _ 0 (by norm_num) (by norm_num) (by norm_num)
  have r51 : fixedRep (0.0000051 : ℚ) = (false, 1) :=
    fixedRep_eval_nonneg _ 1 (by norm_num) (by norm_num) (by norm_num)
  have r10 : fixedRep (10 : ℚ) = (false, 1000000) :=
    fixedRep_eval_nonneg _ 1000000 (by norm_num) (by norm_num) (by norm_num)
  have r10j : fixedRep (10.000001 : ℚ) = (false, 1000000) :=
    fixedRep_eval_nonneg _ 1000000 (by norm_num) (by norm_num) (by norm_num)
  constructor
  · intro he
    have hlen2 : ([⟨0.0000049, 80⟩, ⟨13, 80.1⟩] : List Stop).length
        = ([⟨0.0000051, 80⟩, ⟨13, 80.1⟩] : List Stop).length := rfl
    have hmap := makeKey_fixedPair_inj hlen2 he
    simp only [List.map_cons, List.map_nil, List.cons.injEq, and_true] at hmap
    have hlat := congrArg (fun r => r.2) hmap
    simp only [fixedPair] at hlat
    rw [r49, r51] at hlat
    simp at hlat
  · apply makeKey_round_congr
    simp only [List.map_cons, List.map_nil, List.cons.injEq, and_true, fixedPair]
    rw [r10, r10j]
    exact ⟨rfl, rfl⟩

/-- C4 (amended).  The route cache key is determined by the profile and
the ordered 5-decimal-rounded stop coordinates: reversed two-stop
sequences yield distinct keys whenever the two stops round to distinct
5-decimal coordinates, and two stop sequences whose coordinates round
pairwise to the same 5-decimal values always collide to the same key
(jitter collides exactly when it does not cross a rounding boundary). -/
theorem makeKey_direction_and_rounding :
    (∀ (A B : Stop) (p : String), fixedPair A ≠ fixedPair B →
        makeKey [A, B] p ≠ makeKey [B, A] p) ∧
    (∀ (l1 l2 : List Stop) (p : String), l1.map fixedPair = l2.map fixedPair →
        makeKey l1 p = makeKey l2 p) :=
  ⟨fun _ _ _ h => makeKey_two_swap_ne h, fun _ _ _ h => makeKey_round_congr h⟩

/-- Witness for C4: concrete instantiation of both conjuncts. -/
theorem makeKey_direction_and_rounding_witness :
    (makeKey [⟨13, 80⟩, ⟨10, 76⟩] "driving" ≠ makeKey [⟨10, 76⟩, ⟨13, 80⟩] "driving") ∧
    (makeKey [⟨10, 76⟩] "driving" = makeKey [⟨10.000001, 76⟩] "driving") := by
  have r13 : fixedRep (13 : ℚ) = (false, 1300000) :=
    fixedRep_eval_nonneg _ 1300000 (by norm_num) (by norm_num) (by norm_num)
  have r10 : fixedRep (10 : ℚ) = (false, 1000000) :=
    fixedRep_eval_nonneg _ 1000000 (by norm_num) (by norm_num) (by norm_num)
  have r10j : fixedRep (10.000001 : ℚ) = (false, 1000000) :=
    fixedRep_eval_nonneg _ 1000000 (by norm_num) (by norm_num) (by norm_num)
  constructor
  · apply makeKey_direction_and_rounding.1
    intro he
    have := congrArg (fun r => r.2) he
    simp only [fixedPair] at this
    rw [r13, r10] at this
    simp at this
  · apply makeKey_direction_and_rounding.2
    simp only [List.map_cons, List.map_nil, List.cons.injEq, and_true, fixedPair]
    rw [r10, r10j]

/-- C6.  `set` followed by `get` with the same stops and profile returns
the stored geometry (points and distanceKm) unchanged, with `cachedAt`
stamped at the set time; `get` on the pristine cache returns absent. -/
theorem routeCache_roundtrip_and_absent :
    (∀ (st : RCState) (stops : List Stop) (data : RouteData) (p : String) (now : ℤ),
        (RouteCache.get (RouteCache.set st stops data p now) stops p).1
          = some ⟨data.points, data.distanceKm, now⟩) ∧
    (∀ (stops : List Stop) (p : String),
        (RouteCache.get RCState.init stops p).1 = none) := by
  constructor
  · intro st stops data p now
    simp [RouteCache.get, RouteCache.set, lookupA]
  · intro stops p
    simp [RouteCache.get, RCState.init, lookupA]

/-- C10.  The client cache has no expiry: `cachedAt` is stamped by `set`
but read by no operation, so an entry set at any time whatsoever (the
set-time `now` below is universally quantified, and `get` takes no
clock at all) is returned unchanged by `get`; and a tier-2 hit is
promoted into tier-1 without any freshness check on its `cachedAt`. -/
theorem routeCache_no_expiry_promotion :
    (∀ (st : RCState) (stops : List Stop) (data : RouteData) (p : String) (now : ℤ),
        (RouteCache.get (RouteCache.set st stops data p now) stops p).1
          = some ⟨data.points, data.distanceKm, now⟩) ∧
    (∀ (sess : List (String × Option CachedRoute)) (q : Bool) (stops : List Stop)
        (p : String) (e : CachedRoute),
        lookupA sess (sessKey (makeKey stops p)) = some (some e) →
        RouteCache.get ⟨[], sess, q⟩ stops p
          = (some e, ⟨[(makeKey stops p, e)], sess, q⟩)) := by
  constructor
  · intro st stops data p now
    simp [RouteCache.get, RouteCache.set, lookupA]
  · intro sess q stops p e h
    simp [RouteCache.get, lookupA, h]

/-- Witness for C10: a tier-2 entry stamped at epoch time 0 (arbitrarily
stale) is returned and promoted verbatim. -/
theorem routeCache_no_expiry_promotion_witness :
    RouteCache.get ⟨[], [(sessKey (makeKey [⟨9, 77⟩] "driving"), some ⟨[(9, 77)], 5, 0⟩)], false⟩
        [⟨9, 77⟩] "driving"
      = (some ⟨[(9, 77)], 5, 0⟩,
         ⟨[(makeKey [⟨9, 77⟩] "driving", ⟨[(9, 77)], 5, 0⟩)],
          [(sessKey (makeKey [⟨9, 77⟩] "driving"), some ⟨[(9, 77)], 5, 0⟩)], false⟩) :=
  routeCache_no_expiry_promotion.2 _ _ _ _ _ (by simp [lookupA])

/-- C3 counterexample.  `prewarm` has no try/catch, so a rejected
`fetch` (or a body whose `json()` rejects) rejects the promise that
`prewarm` returns: with a failing routing provider and an empty cache
it surfaces the failure to its caller rather than swallowing it
(the sole caller, `warmRouteCache` in main.ts, attaches `.catch(() => ...)`
precisely because of this). -/
theorem prewarm_rejects_counterexample :
    RouteCache.prewarm (fun _ _ => .error "network failure") RCState.init
      [⟨9.9252, 78.1198⟩, ⟨10.7905, 78.7047⟩] "driving" 0 = .error "network failure" := by
  simp [RouteCache.prewarm, RouteCache.get, RCState.init, lookupA]

/-- C3 (amended).  `prewarm` resolves without surfacing a failure on a
cache hit and on a well-formed response with an empty route list, but a
rejected fetch/parse chain rejects the promise `prewarm` returns; the
caller must attach its own handler. -/
theorem prewarm_failure_surface :
    (∀ (fo : List (ℚ × ℚ) → String → Except String OsrmPayload)
        (st : RCState) (stops : List Stop) (p : String) (now : ℤ)
        (v : CachedRoute) (st2 : RCState),
        RouteCache.get st stops p = (some v, st2) →
        RouteCache.prewarm fo st stops p now = .ok st2) ∧
    (∀ (fo : List (ℚ × ℚ) → String → Except String OsrmPayload)
        (st : RCState) (stops : List Stop) (p : String) (now : ℤ)
        (st2 : RCState) (resp : OsrmPayload),
        RouteCache.get st stops p = (none, st2) →
        fo (stops.map (fun s => (s.lon, s.lat))) p = .ok resp →
        resp.routes = [] →
        RouteCache.prewarm fo st stops p now = .ok st2) ∧
    (∀ (fo : List (ℚ × ℚ) → String → Except String OsrmPayload)
        (st : RCState) (stops : List Stop) (p : String) (now : ℤ)
        (st2 : RCState) (e : String),
        RouteCache.get st stops p = (none, st2) →
        fo (stops.map (fun s => (s.lon, s.lat))) p = .error e →
        RouteCache.prewarm fo st stops p now = .error e) := by
  refine ⟨?_, ?_, ?_⟩
  · intro fo st stops p now v st2 hget
    simp [RouteCache.prewarm, hget]
  · intro fo st stops p now st2 resp hget hfo hroutes
    simp [RouteCache.prewarm, hget, hfo, hroutes]
  · intro fo st stops p now st2 e hget hfo
    simp [RouteCache.prewarm, hget, hfo]

/-- Witness for C3: each amended branch at a concrete input. -/
theorem prewarm_failure_surface_witness :
    (RouteCache.prewarm (fun _ _ => .ok ⟨[]⟩)
        (RouteCache.set RCState.init [⟨9, 77⟩, ⟨10, 78⟩] ⟨[(9, 77)], 12⟩ "driving" 3)
        [⟨9, 77⟩, ⟨10, 78⟩] "driving" 9
      = .ok (RouteCache.set RCState.init [⟨9, 77⟩, ⟨10, 78⟩] ⟨[(9, 77)], 12⟩ "driving" 3)) ∧
    (RouteCache.prewarm (fun _ _ => .ok ⟨[]⟩) RCState.init
        [⟨9, 77⟩, ⟨10, 78⟩] "driving" 9 = .ok RCState.init) ∧
    (RouteCache.prewarm (fun _ _ => .error "dns error") RCState.init
        [⟨11, 79⟩, ⟨12, 79.5⟩] "driving" 9 = .error "dns error") := by
  refine ⟨?_, ?_, ?_⟩
  · exact prewarm_failure_surface.1 (fun _ _ => Except.ok ⟨[]⟩)
      (RouteCache.set RCState.init [⟨9, 77⟩, ⟨10, 78⟩] ⟨[(9, 77)], 12⟩ "driving" 3)
      [⟨9, 77⟩, ⟨10, 78⟩] "driving" 9 ⟨[(9, 77)], 12, 3⟩ _
      (by simp [RouteCache.get, RouteCache.set, lookupA])
  · exact prewarm_failure_surface.2.1 (fun _ _ => Except.ok ⟨[]⟩) RCState.init
      [⟨9, 77⟩, ⟨10, 78⟩] "driving" 9 RCState.init ⟨[]⟩
      (by simp [RouteCache.get, RCState.init, lookupA]) rfl rfl
  · exact prewarm_failure_surface.2.2 (fun _ _ => Except.error "dns error") RCState.init
      [⟨11, 79⟩, ⟨12, 79.5⟩] "driving" 9 RCState.init "dns error"
      (by simp [RouteCache.get, RCState.init, lookupA]) rfl

/-- C1 (code bug exhibit). The `computeArrowBearings` handler is
documented (worker comment, lines 131 and 52) and specified to return
at most 8 arrow entries, but on an 11-point polyline the stride is
`max(1, floor(11/8)) = 1` and the loop emits one entry per interior
index `1..9`: 9 entries, exceeding the documented bound of 8. -/
theorem computeArrowBearings_eleven_points_gives_nine :
    (computeArrowBearings
      [(0, 0), (0, 1), (0, 2), (0, 3), (0, 4), (0, 5),
       (0, 6), (0, 7), (0, 8), (0, 9), (0, 10)]).length = 9 ∧ 8 < 9 := by
  constructor
  · simp [computeArrowBearings, loopIdxs]
  · norm_num

/-- C7. `filterNoisyGps` keeps the first fix unconditionally, and on the
input `[(0,0), (0,0.00005), (0,0.001)]` with the default 20 m threshold
it drops the ≈5.5 m jitter point and keeps the ≈111 m point, returning
exactly `[(0,0), (0,0.001)]`. -/
theorem filterNoisyGps_greedy_example :
    (∀ (p : ℚ × ℚ) (rest : List (ℚ × ℚ)) (d : ℚ),
        (filterNoisyGps (p :: rest) d).head? = some p) ∧
    filterNoisyGps [(0, 0), (0, 0.00005), (0, 0.001)] 20 = [(0, 0), (0, 0.001)] := by
  constructor
  · intro p rest d
    simp [filterNoisyGps]
  · have cast1 : (((0.00005 : ℚ) : ℝ)) = 0.00005 := by norm_num
    have cast2 : (((0.001 : ℚ) : ℝ)) = 0.001 := by norm_num
    have h1 : haversineR 6371000 ((0 : ℚ) : ℝ) ((0 : ℚ) : ℝ) ((0 : ℚ) : ℝ)
        (((0.00005 : ℚ)) : ℝ) < 20 := by
      rw [show (((0 : ℚ)) : ℝ) = 0 by norm_num, cast1]
      rw [haversineR_equator 6371000 0 0.00005 (by norm_num) (by nlinarith [Real.pi_pos])]
      nlinarith [Real.pi_lt_d2]
    have h2 : (20 : ℝ) ≤ haversineR 6371000 ((0 : ℚ) : ℝ) ((0 : ℚ) : ℝ) ((0 : ℚ) : ℝ)
        (((0.001 : ℚ)) : ℝ) := by
      rw [show (((0 : ℚ)) : ℝ) = 0 by norm_num, cast2]
      rw [haversineR_equator 6371000 0 0.001 (by norm_num) (by nlinarith [Real.pi_pos])]
      nlinarith [Real.pi_gt_three]
    simp only [filterNoisyGps, filterGo]
    rw [if_neg (by push_cast; linarith), if_pos (by push_cast; linarith)]

theorem geocodeQueries_caches (oracle : String → List Candidate) (cache : GeoCache)
    (cacheKey : String) (anchor : Option (ℚ × ℚ)) :
    ∀ qs, lookupA (geocodeQueries oracle cache cacheKey anchor qs).2.1 cacheKey
      = some (geocodeQueries oracle cache cacheKey anchor qs).1 := by
  intro qs
  induction qs with
  | nil => simp [geocodeQueries, lookupA]
  | cons q qs ih =>
    simp only [geocodeQueries]
    cases oracle q with
    | nil => simpa using ih
    | cons r0 rest => simp [lookupA]

/-- After any `geocodeStop` call the normalized name maps, in the
resulting cache, to exactly the value the call returned. -/
theorem geocodeStop_caches (oracle : String → List Candidate) (cache : GeoCache)
    (name : String) (anchor : Option (ℚ × ℚ)) :
    lookupA (geocodeStop oracle cache name anchor).2.1 (jsLower (jsTrim name))
      = some (geocodeStop oracle cache name anchor).1 := by
  simp only [geocodeStop]
  cases h : lookupA cache (jsLower (jsTrim name)) with
  | some v => simpa using h
  | none => simpa using geocodeQueries_caches oracle cache _ anchor (clientQueries name)

/-- C5.  Within one session (one threading of the cache), a second
`resolve` of the same stop name returns the identical cached value —
present or absent alike — leaves the cache untouched, and issues zero
provider requests; and the outcome of the first call, including a
failed resolution, is cached under the trimmed lowercased name. -/
theorem geocode_resolve_cached_once (oracle : String → List Candidate)
    (cache : GeoCache) (name : String) (a1 a2 : Option (ℚ × ℚ)) :
    (geocodeStop oracle (geocodeStop oracle cache name a1).2.1 name a2).1
        = (geocodeStop oracle cache name a1).1 ∧
    (geocodeStop oracle (geocodeStop oracle cache name a1).2.1 name a2).2.1
        = (geocodeStop oracle cache name a1).2.1 ∧
    (geocodeStop oracle (geocodeStop oracle cache name a1).2.1 name a2).2.2 = 0 ∧
    lookupA (geocodeStop oracle cache name a1).2.1 (jsLower (jsTrim name))
        = some (geocodeStop oracle cache name a1).1 := by
  have hc := geocodeStop_caches oracle cache name a1
  refine ⟨?_, ?_, ?_, hc⟩ <;>
  · conv in geocodeStop oracle (geocodeStop oracle cache name a1).2.1 name a2 =>
      rw [geocodeStop]
    simp [hc]

theorem firstResolvedCoord_append (acc : List (Option GeoResult)) (r : Option GeoResult) :
    firstResolvedCoord (acc ++ [r])
      = match firstResolvedCoord acc, r with
        | none, some g => some (g.lat, g.lon)
        | a, _ => a := by
  induction acc with
  | nil =>
    cases r with
    | none => rfl
    | some g => rfl
  | cons a t ih =>
    cases a with
    | none => simpa [firstResolvedCoord] using ih
    | some g =>
      cases r <;> rfl

theorem seqGo_eq_fixedSpec (oracle : String → List Candidate) :
    ∀ (names : List String) (cache : GeoCache) (acc : List (Option GeoResult)),
      seqGo oracle names cache (firstResolvedCoord acc) acc
        = seqFixedSpecGo oracle names cache acc := by
  intro names
  induction names with
  | nil => intro cache acc; rfl
  | cons n ns ih =>
    intro cache acc
    simp only [seqGo, seqFixedSpecGo]
    rw [← firstResolvedCoord_append acc (geocodeStop oracle cache n (firstResolvedCoord acc)).1]
    exact ih _ _

theorem lastResolvedCoord_append (acc : List ResolvedStop) (r : ResolvedStop) :
    lastResolvedCoord (acc ++ [r]) = some (r.lat, r.lon) := by
  simp [lastResolvedCoord, List.getLast?_concat]

theorem edgeLoop_eq_lastSpec (nom : String → ℕ → Except String (List Candidate)) :
    ∀ (names : List String) (acc : List ResolvedStop),
      edgeGeocodeLoop nom names (lastResolvedCoord acc) acc
        = edgeSeqLastSpec nom names acc := by
  intro names
  induction names with
  | nil => intro acc; rfl
  | cons s ss ih =>
    intro acc
    simp only [edgeGeocodeLoop, edgeSeqLastSpec]
    cases geocodeOneEdge nom (jsTrim s) (lastResolvedCoord acc) edgeQueryIdxs with
    | error e => rfl
    | ok o =>
      cases o with
      | none => exact ih acc
      | some r =>
        show edgeGeocodeLoop nom ss (some (r.lat, r.lon)) (acc ++ [r])
          = edgeSeqLastSpec nom ss (acc ++ [r])
        rw [← lastResolvedCoord_append acc r]
        exact ih (acc ++ [r])

/-- C2 (amended).  The client's `geocodeStopSequence` does fix the
anchor at the first successfully resolved stop for the whole sequence;
the edge resolver's geocoding loop does not reimplement that policy: it
hands each stop the coordinate of the most recently resolved stop as
the anchor. -/
theorem anchor_policy_client_fixed_edge_last :
    (∀ (oracle : String → List Candidate) (cache : GeoCache) (names : List String),
        geocodeStopSequence oracle cache names = seqFixedSpecGo oracle names cache []) ∧
    (∀ (nom : String → ℕ → Except String (List Candidate)) (names : List String),
        edgeGeocodeLoop nom names none [] = edgeSeqLastSpec nom names []) := by
  constructor
  · intro oracle cache names
    have := seqGo_eq_fixedSpec oracle names cache []
    simpa [geocodeStopSequence, firstResolvedCoord] using this
  · intro nom names
    have := edgeLoop_eq_lastSpec nom names []
    simpa [lastResolvedCoord] using this

/-- C2 counterexample.  On the oracle above, the edge loop resolves the
ambiguous third stop to the candidate nearest the second stop (the most
recently resolved one), while the first-resolved-anchor policy the
claim asserts would resolve it to the candidate nearest the first stop:
the two disagree, so the edge loop does not hold the anchor fixed at
the first successfully resolved stop. -/
theorem edge_anchor_not_first_resolved_cex :
    edgeGeocodeLoop nomThreeStops ["S1", "S2", "S3"] none []
      ≠ edgeGeocodeLoopFixedAnchor nomThreeStops ["S1", "S2", "S3"] none [] := by
  have ht1 : jsTrim "S1" = "S1" := by decide
  have ht2 : jsTrim "S2" = "S2" := by decide
  have ht3 : jsTrim "S3" = "S3" := by decide
  have hav_pos : (0 : ℝ) < haversineR 6371 0 10 0 0 := by
    rw [haversineR_comm]
    rw [haversineR_equator 6371 0 10 (by norm_num) (by nlinarith [Real.pi_pos])]
    positivity
  have hav_nonneg : (0 : ℝ) ≤ haversineR 6371 0 0 0 10 := by
    rw [haversineR_equator 6371 0 10 (by norm_num) (by nlinarith [Real.pi_pos])]
    positivity
  have hAB : ¬(haversineR 6371 (0 : ℝ) 10 0 0 ≤ haversineR 6371 (0 : ℝ) 10 0 10) := by
    rw [haversineR_self]
    exact not_le.mpr hav_pos
  have hCD : haversineR 6371 (0 : ℝ) 0 0 0 ≤ haversineR 6371 (0 : ℝ) 0 0 10 := by
    rw [haversineR_self]
    exact hav_nonneg
  have he : edgeGeocodeLoop nomThreeStops ["S1", "S2", "S3"] none []
      = .ok [⟨"S1", "P1", 0, 0⟩, ⟨"S2", "P2", 0, 10⟩, ⟨"S3", "D10", 0, 10⟩] := by
    simp [edgeGeocodeLoop, geocodeOneEdge, edgeQueryIdxs, nomThreeStops,
      ht1, ht2, ht3, pickBest, correctedOf, jsStringOr, hAB]
  have hf : edgeGeocodeLoopFixedAnchor nomThreeStops ["S1", "S2", "S3"] none []
      = .ok [⟨"S1", "P1", 0, 0⟩, ⟨"S2", "P2", 0, 10⟩, ⟨"S3", "C0", 0, 0⟩] := by
    simp [edgeGeocodeLoopFixedAnchor, geocodeOneEdge, edgeQueryIdxs, nomThreeStops,
      ht1, ht2, ht3, pickBest, correctedOf, jsStringOr, hCD]
  rw [he, hf]
  intro h
  simp only [Except.ok.injEq] at h
  exact absurd h (by decide)

/-- C8 counterexample.  JavaScript truthiness breaks the NotFound
branch at `busId = 0`: with no stops and a record store that knows no
bus at all, the request `{busId: 0}` never reaches the store lookup
(`body.busId` is falsy), so the handler answers 400 InvalidRequest
instead of the 404 NotFound the claim requires for an unknown busId. -/
theorem edge_busid_zero_cex :
    handler ⟨fun _ => .ok none, false, fun _ => .ok none, fun _ _ => .ok [],
        fun _ => .ok ⟨[]⟩, "2026-02-03T00:00:00.000Z"⟩ "POST"
        (.ok ⟨some 0, none, none⟩)
      = (⟨400, .errMsg "At least 2 stops required" none⟩, []) ∧
    (⟨400, .errMsg "At least 2 stops required" none⟩ : EdgeResponse)
      ≠ ⟨404, .errMsg "Bus not found" none⟩ := by
  constructor
  · simp [handler, handlerTry, resolveStopNames, jsTruthyInt]
  · decide

/-- C8 (amended).  The edge handler realizes its error taxonomy with
one truthiness caveat: a direct stops list takes priority over `busId`
(the record store is never consulted); an unknown nonzero `busId`
yields 404 NotFound (while `busId = 0` is falsy and falls through to
the stops-length check); fewer than 2 stops yields 400 InvalidRequest;
fewer than 2 geocoded stops yields 422 GeocodeInsufficient; an OSRM
response with no routes yields 502 RoutingUnavailable; and any failure
propagating out of the try body is caught and returned as the 500
Internal response — the handler is a total function into responses,
never an unhandled crash. -/
theorem edge_error_taxonomy :
    (∀ (env : EdgeEnv) (db2 : ℤ → Except String (Option (List String)))
        (bid : Option ℤ) (bn : Option String) (s : String) (ss : List String),
        handler { env with db := db2 } "POST" (.ok ⟨bid, bn, some (s :: ss)⟩)
          = handler env "POST" (.ok ⟨bid, bn, some (s :: ss)⟩)) ∧
    (∀ (env : EdgeEnv) (bn : Option String) (n : ℤ), n ≠ 0 →
        env.db n = .ok none →
        handler env "POST" (.ok ⟨some n, bn, none⟩)
          = (⟨404, .errMsg "Bus not found" none⟩, [])) ∧
    (∀ (env : EdgeEnv) (bid : Option ℤ) (bn : Option String) (s : String),
        handler env "POST" (.ok ⟨bid, bn, some [s]⟩)
          = (⟨400, .errMsg "At least 2 stops required" none⟩, [])) ∧
    (∀ (env : EdgeEnv) (bid : Option ℤ) (bn : Option String) (s1 s2 : String)
        (ss : List String) (res : List ResolvedStop),
        env.kvAvailable = false →
        edgeGeocodeLoop env.nom (s1 :: s2 :: ss) none [] = .ok res →
        res.length < 2 →
        handler env "POST" (.ok ⟨bid, bn, some (s1 :: s2 :: ss)⟩)
          = (⟨422, .errMsg "Could not geocode enough stops" none⟩, [])) ∧
    (∀ (env : EdgeEnv) (bid : Option ℤ) (bn : Option String) (s1 s2 : String)
        (ss : List String) (res : List ResolvedStop),
        env.kvAvailable = false →
        edgeGeocodeLoop env.nom (s1 :: s2 :: ss) none [] = .ok res →
        ¬(res.length < 2) →
        env.osrm (res.map (fun s => (s.lon, s.lat))) = .ok ⟨[]⟩ →
        handler env "POST" (.ok ⟨bid, bn, some (s1 :: s2 :: ss)⟩)
          = (⟨502, .errMsg "OSRM returned no routes" none⟩, [])) ∧
    (∀ (env : EdgeEnv) (b : ResolveRequest) (e : String),
        handlerTry env b = .error e →
        handler env "POST" (.ok b)
          = (⟨500, .errMsg "Internal server error" (some e)⟩, [])) := by
  refine ⟨?_, ?_, ?_, ?_, ?_, ?_⟩
  · intro env db2 bid bn s ss
    rfl
  · intro env bn n hn hdb
    simp [handler, handlerTry, resolveStopNames, jsTruthyInt, hn, hdb]
  · intro env bid bn s
    simp [handler, handlerTry, resolveStopNames]
  · intro env bid bn s1 s2 ss res hkv hgeo hlen
    have hss : ¬(ss.length + 1 + 1 < 2) := by omega
    simp [handler, handlerTry, resolveStopNames, handlerMiss, hkv, hgeo, hlen, hss]
  · intro env bid bn s1 s2 ss res hkv hgeo hlen hosrm
    have hss : ¬(ss.length + 1 + 1 < 2) := by omega
    simp [handler, handlerTry, resolveStopNames, handlerMiss, hkv, hgeo, hlen, hosrm, hss]
  · intro env b e htry
    simp [handler, htry]

theorem nomAB_resolves : edgeGeocodeLoop nomAB ["A", "B"] none []
    = .ok [⟨"A", "A1", 9, 77⟩, ⟨"B", "B1", 10, 78⟩] := by
  have htA : jsTrim "A" = "A" := by decide
  have htB : jsTrim "B" = "B" := by decide
  simp [edgeGeocodeLoop, geocodeOneEdge, edgeQueryIdxs, nomAB, htA, htB,
    pickBest, correctedOf, jsStringOr]

/-- Witness for C8: every taxonomy branch at a concrete request. -/
theorem edge_error_taxonomy_witness :
    (handler { envBare with db := fun _ => .error "db down" } "POST"
        (.ok ⟨some 7, none, some ["A", "B"]⟩)
      = handler envBare "POST" (.ok ⟨some 7, none, some ["A", "B"]⟩)) ∧
    (handler envBare "POST" (.ok ⟨some 5, none, none⟩)
      = (⟨404, .errMsg "Bus not found" none⟩, [])) ∧
    (handler envBare "POST" (.ok ⟨none, none, some ["A"]⟩)
      = (⟨400, .errMsg "At least 2 stops required" none⟩, [])) ∧
    (handler envBare "POST" (.ok ⟨none, none, some ["A", "B"]⟩)
      = (⟨422, .errMsg "Could not geocode enough stops" none⟩, [])) ∧
    (handler { envBare with nom := nomAB } "POST" (.ok ⟨none, none, some ["A", "B"]⟩)
      = (⟨502, .errMsg "OSRM returned no routes" none⟩, [])) ∧
    (handler { envBare with db := fun _ => .error "db down" } "POST"
        (.ok ⟨some 3, none, none⟩)
      = (⟨500, .errMsg "Internal server error" (some "db down")⟩, [])) := by
  refine ⟨?_, ?_, ?_, ?_, ?_, ?_⟩
  · exact edge_error_taxonomy.1 envBare _ _ _ _ _
  · exact edge_error_taxonomy.2.1 envBare none 5 (by norm_num) rfl
  · exact edge_error_taxonomy.2.2.1 envBare none none "A"
  · apply edge_error_taxonomy.2.2.2.1 envBare none none "A" "B" [] []
    · rfl
    · simp [edgeGeocodeLoop, geocodeOneEdge, edgeQueryIdxs, envBare, nomEmpty]
    · norm_num
  · apply edge_error_taxonomy.2.2.2.2.1 { envBare with nom := nomAB } none none "A" "B" []
      [⟨"A", "A1", 9, 77⟩, ⟨"B", "B1", 10, 78⟩]
    · rfl
    · exact nomAB_resolves
    · norm_num
    · rfl
  · apply edge_error_taxonomy.2.2.2.2.2
    simp [handlerTry, resolveStopNames, envBare, jsTruthyInt]

/-- C9.  With the durable KV store available, the handler consults it
before any geocoding or routing: on a hit it returns the stored payload
with `fromCache` forced true, performs no KV write, and its response is
a function of the store alone (the conclusion mentions neither the
geocoding nor the routing oracle); on a miss, a successful resolution
is returned with `fromCache = false` and written to the store under the
stop-list key with the 24-hour (86400000 ms) expiry. -/
theorem edge_cache_hit_and_ttl_store :
    (∀ (env : EdgeEnv) (bid : Option ℤ) (bn : Option String) (s1 s2 : String)
        (ss : List String) (v : RouteResponse),
        env.kvAvailable = true →
        env.kvGet (edgeCacheKey (s1 :: s2 :: ss)) = .ok (some v) →
        handler env "POST" (.ok ⟨bid, bn, some (s1 :: s2 :: ss)⟩)
          = (⟨200, .route { v with fromCache := true }⟩, [])) ∧
    (∀ (env : EdgeEnv) (bid : Option ℤ) (bn : Option String) (s1 s2 : String)
        (ss : List String) (res : List ResolvedStop) (rt : OsrmRoute)
        (more : List OsrmRoute),
        env.kvAvailable = true →
        env.kvGet (edgeCacheKey (s1 :: s2 :: ss)) = .ok none →
        edgeGeocodeLoop env.nom (s1 :: s2 :: ss) none [] = .ok res →
        ¬(res.length < 2) →
        env.osrm (res.map (fun s => (s.lon, s.lat))) = .ok ⟨rt :: more⟩ →
        handler env "POST" (.ok ⟨bid, bn, some (s1 :: s2 :: ss)⟩)
          = (⟨200, .route ⟨bid, bn, res, rt.coordinates.map (fun c => (c.2, c.1)),
                rt.distance / 1000, rt.duration, env.nowIso, false⟩⟩,
             [⟨edgeCacheKey (s1 :: s2 :: ss),
               ⟨bid, bn, res, rt.coordinates.map (fun c => (c.2, c.1)),
                rt.distance / 1000, rt.duration, env.nowIso, false⟩, 86400000⟩])) := by
  constructor
  · intro env bid bn s1 s2 ss v hkv hget
    have hss : ¬(ss.length + 1 + 1 < 2) := by omega
    simp [handler, handlerTry, resolveStopNames, hkv, hget, hss]
  · intro env bid bn s1 s2 ss res rt more hkv hget hgeo hlen hosrm
    have hss : ¬(ss.length + 1 + 1 < 2) := by omega
    simp [handler, handlerTry, resolveStopNames, handlerMiss, hkv, hget, hgeo,
      hlen, hosrm, hss]

/-- Witness for C9: a concrete hit and a concrete stored miss. -/
theorem edge_cache_hit_and_ttl_store_witness :
    (handler envHit "POST" (.ok ⟨none, none, some ["A", "B"]⟩)
      = (⟨200, .route ⟨none, none, [], [], 1, 2, "t0", true⟩⟩, [])) ∧
    (handler envStore "POST" (.ok ⟨none, none, some ["A", "B"]⟩)
      = (⟨200, .route ⟨none, none, [⟨"A", "A1", 9, 77⟩, ⟨"B", "B1", 10, 78⟩],
            [(10, 78), (9, 77)], (5000 : ℚ) / 1000, 600,
            "2026-02-03T00:00:00.000Z", false⟩⟩,
         [⟨edgeCacheKey ["A", "B"],
           ⟨none, none, [⟨"A", "A1", 9, 77⟩, ⟨"B", "B1", 10, 78⟩],
            [(10, 78), (9, 77)], (5000 : ℚ) / 1000, 600,
            "2026-02-03T00:00:00.000Z", false⟩, 86400000⟩])) := by
  constructor
  · exact edge_cache_hit_and_ttl_store.1 envHit none none "A" "B" []
      ⟨none, none, [], [], 1, 2, "t0", false⟩ rfl rfl
  · apply edge_cache_hit_and_ttl_store.2 envStore none none "A" "B" []
      [⟨"A", "A1", 9, 77⟩, ⟨"B", "B1", 10, 78⟩] ⟨[(78, 10), (77, 9)], 5000, 600⟩ []
    · rfl
    · rfl
    · exact nomAB_resolves
    · norm_num
    · rfl

end BusTrack
